import Mathlib

/-!
Verification of the ChildPsych course client (quiz engine and progress
tracker, `js/quiz.js`).  The two logic-bearing components are shallowly
embedded:

* `Progress` models PROGRESS.JS (the `ProgressManager` class): the
  persisted store, `createDefault`, `load` (with its self-repair),
  `markSectionComplete`, `saveQuizScore`, `getModuleProgress`,
  `getOverallProgress`, `getModuleStatus`, `resetModule`, `resetAll`,
  `save`, and `_checkModuleCompletion`.

* `Quiz` models QUIZ ENGINE (the `QuizEngine` class): the per-attempt
  session state, `selectOption`, `checkAnswer` (with `_checkDragMatch`),
  `nextQuestion`, `retry`, and the score computation of `showResults`.

JavaScript objects used as string-keyed dictionaries (`data.modules`,
`matchedPairs`, `correctPairs`, `MODULE_TOTAL_SECTIONS`) are embedded as
association lists in insertion order; `obj[k]` is `lookupAssoc` and
`obj[k] = v` is `setAssoc` (update in place if the key exists, append
otherwise).  JavaScript numbers are embedded as `ℚ` (scores, progress
arithmetic), `ℤ` (rounded percentages, attempt counters) and `ℕ`
(array indices, section totals); `Math.round` is `jsRound`.  DOM access,
animation and `localStorage` I/O are effects outside the data model and
are not embedded; timestamps (`new Date().toISOString()`) enter as an
explicit `now : String` argument.
-/

/-! ### Association lists: JavaScript string-keyed objects -/

/-- `obj[k]` on a JavaScript object embedded as an association list:
the value at the first matching key, or `none` (undefined). -/
def lookupAssoc {α : Type} (l : List (String × α)) (k : String) : Option α :=
  match l with
  | [] => none
  | (k₁, v) :: t => if k₁ = k then some v else lookupAssoc t k

/-- `obj[k] = v` on a JavaScript object: overwrite in place if the key
exists, otherwise append the new key at the end (insertion order). -/
def setAssoc {α : Type} (l : List (String × α)) (k : String) (v : α) :
    List (String × α) :=
  match l with
  | [] => [(k, v)]
  | (kh, vh) :: t => if kh = k then (kh, v) :: t else (kh, vh) :: setAssoc t k v

theorem lookupAssoc_setAssoc_self {α : Type} (l : List (String × α)) (k : String) (v : α) :
    lookupAssoc (setAssoc l k v) k = some v := by
  induction l with
  | nil => simp [setAssoc, lookupAssoc]
  | cons h t ih =>
    by_cases hk : h.1 = k
    · simp [setAssoc, hk, lookupAssoc]
    · simp [setAssoc, hk, lookupAssoc, ih]

theorem lookupAssoc_setAssoc_ne {α : Type} (l : List (String × α)) (k k₁ : String) (v : α)
    (h : k₁ ≠ k) : lookupAssoc (setAssoc l k v) k₁ = lookupAssoc l k₁ := by
  induction l with
  | nil => simp [setAssoc, lookupAssoc, h.symm]
  | cons hd t ih =>
    by_cases hk : hd.1 = k
    · have hne : k ≠ k₁ := fun h₁ => h h₁.symm
      simp [setAssoc, hk, lookupAssoc, hne]
    · by_cases hk₁ : hd.1 = k₁
      · simp [setAssoc, hk, lookupAssoc, hk₁, h]
      · simp [setAssoc, hk, lookupAssoc, hk₁, ih]

theorem setAssoc_eq_self {α : Type} (l : List (String × α)) (k : String) (v : α)
    (h : lookupAssoc l k = some v) : setAssoc l k v = l := by
  induction l with
  | nil => simp [lookupAssoc] at h
  | cons hd t ih =>
    by_cases hk : hd.1 = k
    · simp [lookupAssoc, hk] at h
      simp only [setAssoc, hk, if_pos, ← h]
      rw [← hk]
    · simp [lookupAssoc, hk] at h
      simp [setAssoc, hk, ih h]

theorem lookupAssoc_mem {α : Type} {l : List (String × α)} {k : String} {v : α}
    (h : lookupAssoc l k = some v) : (k, v) ∈ l := by
  induction l with
  | nil => simp [lookupAssoc] at h
  | cons hd t ih =>
    by_cases hk : hd.1 = k
    · simp [lookupAssoc, hk] at h
      subst hk
      simp [← h]
    · simp [lookupAssoc, hk] at h
      exact List.mem_cons_of_mem _ (ih h)

theorem lookupAssoc_of_mem_nodup {α : Type} {l : List (String × α)} {k : String} {v : α}
    (hnd : (l.map Prod.fst).Nodup) (h : (k, v) ∈ l) : lookupAssoc l k = some v := by
  induction l with
  | nil => simp at h
  | cons hd t ih =>
    simp only [List.map_cons, List.nodup_cons] at hnd
    rcases List.mem_cons.mp h with h₁ | h₁
    · subst h₁
      simp [lookupAssoc]
    · have hne : hd.1 ≠ k := by
        intro he
        exact hnd.1 (by
          have : k ∈ t.map Prod.fst := List.mem_map.mpr ⟨(k, v), h₁, rfl⟩
          rwa [he])
      simp [lookupAssoc, hne, ih hnd.2 h₁]

theorem lookupAssoc_map {α β : Type} (l : List (String × α)) (f : α → β) (k : String) :
    lookupAssoc (l.map (fun p => (p.1, f p.2))) k = (lookupAssoc l k).map f := by
  induction l with
  | nil => simp [lookupAssoc]
  | cons hd t ih =>
    by_cases hk : hd.1 = k
    · simp [lookupAssoc, hk]
    · simp [lookupAssoc, hk, ih]

theorem lookupAssoc_map_const {α : Type} (ks : List String) (d : α) (k : String)
    (h : k ∈ ks) : lookupAssoc (ks.map (fun x => (x, d))) k = some d := by
  induction ks with
  | nil => simp at h
  | cons hd t ih =>
    by_cases hk : hd = k
    · simp [lookupAssoc, hk]
    · rcases List.mem_cons.mp h with h₁ | h₁
      · exact absurd h₁.symm hk
      · simp [lookupAssoc, hk, ih h₁]

/-! ### JavaScript `Math.round`

`Math.round(x)` rounds half toward positive infinity: it equals
`⌊x + 1/2⌋` for every finite `x`. -/

/-- JavaScript `Math.round`. -/
def jsRound (q : ℚ) : ℤ := ⌊q + 1 / 2⌋

theorem jsRound_nonneg {q : ℚ} (h : 0 ≤ q) : 0 ≤ jsRound q := by
  unfold jsRound
  exact Int.le_floor.mpr (by push_cast; linarith)

theorem jsRound_le_hundred {q : ℚ} (h : q ≤ 100) : jsRound q ≤ 100 := by
  unfold jsRound
  have h₁ : ⌊q + 1 / 2⌋ ≤ ⌊(100 : ℚ) + 1 / 2⌋ := Int.floor_le_floor (by linarith)
  have h₂ : ⌊(100 : ℚ) + 1 / 2⌋ = 100 := by norm_num
  omega

/-! ### PROGRESS.JS — the `ProgressManager` store -/

namespace Progress

/-- `CURRENT_VERSION` (quiz.js, progress section). -/
def CURRENT_VERSION : String := "1.0"

/-- `MODULE_TOTAL_SECTIONS`: declared total sections per module. -/
def MODULE_TOTAL_SECTIONS : List (String × ℕ) :=
  [("module1", 10), ("module2", 10), ("module3", 11), ("module4", 11),
   ("module5", 12), ("module6", 11), ("module7", 11), ("module8", 13),
   ("module9", 11), ("module10", 11)]

/-- The key list produced by the `for (var i = 1; i <= 10; i++)` loops of
`createDefault` and `load` (key `"module" + i`). -/
def knownKeys : List String :=
  ["module1", "module2", "module3", "module4", "module5",
   "module6", "module7", "module8", "module9", "module10"]

/-- One per-module record as the live code maintains it (after `load` has
guaranteed `sectionsCompleted` is an array). -/
structure ModuleRecord where
  status : String
  sectionsCompleted : List String
  quizScore : Option ℚ
  quizAttempts : ℤ
  deriving DecidableEq

/-- The default per-module record built by `createDefault` (and used by the
repair in `load`, `resetModule` and `resetAll`). -/
def defaultModuleRecord : ModuleRecord :=
  { status := "not-started", sectionsCompleted := [], quizScore := none,
    quizAttempts := 0 }

/-- The progress store (`this.data`). -/
structure Store where
  version : String
  startedAt : String
  lastUpdated : String
  modules : List (String × ModuleRecord)
  overallProgress : ℤ
  deriving DecidableEq

/-- `createDefault()`. -/
def createDefault (now : String) : Store :=
  { version := CURRENT_VERSION, startedAt := now, lastUpdated := now,
    modules := knownKeys.map (fun k => (k, defaultModuleRecord)),
    overallProgress := 0 }

/-- The JavaScript expression `MODULE_TOTAL_SECTIONS[moduleId] || 5`
(`undefined` and `0` are falsy, any other stored total is returned). -/
def jsOr (o : Option ℕ) (d : ℕ) : ℕ :=
  match o with
  | some n => if n = 0 then d else n
  | none => d

/-- `MODULE_TOTAL_SECTIONS[moduleId] || 5` as used by `getModuleProgress`
and `_checkModuleCompletion`. -/
def totalSectionsFor (mid : String) : ℕ :=
  jsOr (lookupAssoc MODULE_TOTAL_SECTIONS mid) 5

theorem totalSectionsFor_pos (mid : String) : 0 < totalSectionsFor mid := by
  unfold totalSectionsFor jsOr
  cases lookupAssoc MODULE_TOTAL_SECTIONS mid with
  | none => norm_num
  | some n =>
    by_cases h : n = 0
    · simp [h]
    · simp [h]
      omega

/-- `getModuleProgress(moduleId)`: sections weigh 70%, quiz 30%. -/
def getModuleProgress (st : Store) (mid : String) : ℤ :=
  match lookupAssoc st.modules mid with
  | none => 0
  | some m =>
    let totalSections := totalSectionsFor mid
    let sectionProgress : ℚ :=
      min ((m.sectionsCompleted.length : ℚ) / (totalSections : ℚ)) 1
    let quizProgress : ℚ :=
      match m.quizScore with
      | some sc => if 70 ≤ sc then 1 else sc / 100
      | none => 0
    jsRound (sectionProgress * 70 + quizProgress * 30)

/-- `getOverallProgress()`: rounded mean of `getModuleProgress` over all
keys of `this.data.modules` (insertion order). -/
def getOverallProgress (st : Store) : ℤ :=
  let vals := st.modules.map (fun p => getModuleProgress st p.1)
  if vals.length = 0 then 0 else jsRound ((vals.sum : ℚ) / (vals.length : ℚ))

/-- `getModuleStatus(moduleId)`. -/
def getModuleStatus (st : Store) (mid : String) : String :=
  match lookupAssoc st.modules mid with
  | none => "not-started"
  | some m => m.status

/-- `save()`: refresh `lastUpdated` and the derived `overallProgress`
(the `localStorage.setItem` write is an external effect). -/
def save (st : Store) (now : String) : Store :=
  { st with lastUpdated := now, overallProgress := getOverallProgress st }

/-- The quiz-passed test of `_checkModuleCompletion`:
`module.quizScore !== null && module.quizScore >= 70`. -/
def quizPassedB (m : ModuleRecord) : Bool :=
  match m.quizScore with
  | some q => decide (70 ≤ q)
  | none => false

/-- `_checkModuleCompletion(moduleId)` acting on the module record: mark as
completed when all sections are done and the quiz is passed. -/
def checkModuleCompletion (mid : String) (m : ModuleRecord) : ModuleRecord :=
  if decide (totalSectionsFor mid ≤ m.sectionsCompleted.length) && quizPassedB m
  then { m with status := "completed" }
  else m

/-- First statement of `markSectionComplete`: append the section id to
`sectionsCompleted` if `indexOf` does not find it. -/
def addSection (sid : String) (m : ModuleRecord) : ModuleRecord :=
  if sid ∈ m.sectionsCompleted then m
  else { m with sectionsCompleted := m.sectionsCompleted ++ [sid] }

/-- Second statement of `markSectionComplete`: promote `not-started` to
`in-progress`. -/
def promoteInProgress (m : ModuleRecord) : ModuleRecord :=
  if m.status = "not-started" then { m with status := "in-progress" } else m

/-- Body of `markSectionComplete` acting on the module record: append the
section id if absent, promote `not-started` to `in-progress`, then run the
auto-completion check. -/
def applyMarkSection (mid sid : String) (m : ModuleRecord) : ModuleRecord :=
  checkModuleCompletion mid (promoteInProgress (addSection sid m))

/-- `markSectionComplete(moduleId, sectionId)`: warn-and-return on an
unknown module, otherwise update the record and `save()`. -/
def markSectionComplete (st : Store) (mid sid : String) (now : String) : Store :=
  match lookupAssoc st.modules mid with
  | none => st
  | some m =>
    save { st with modules := setAssoc st.modules mid (applyMarkSection mid sid m) } now

/-- Body of `saveQuizScore` acting on the module record: overwrite the
score, bump the attempt counter, and force `completed` on a passing score
(otherwise promote `not-started` to `in-progress`). -/
def applySaveQuizScore (score : ℚ) (m : ModuleRecord) : ModuleRecord :=
  let m₁ := { m with quizScore := some score, quizAttempts := m.quizAttempts + 1 }
  if 70 ≤ score then { m₁ with status := "completed" }
  else if m₁.status = "not-started" then { m₁ with status := "in-progress" }
  else m₁

/-- `saveQuizScore(moduleId, score)`. -/
def saveQuizScore (st : Store) (mid : String) (score : ℚ) (now : String) : Store :=
  match lookupAssoc st.modules mid with
  | none => st
  | some m =>
    save { st with modules := setAssoc st.modules mid (applySaveQuizScore score m) } now

/-- `resetModule(moduleId)`. -/
def resetModule (st : Store) (mid : String) (now : String) : Store :=
  match lookupAssoc st.modules mid with
  | none => st
  | some _ =>
    save { st with modules := setAssoc st.modules mid defaultModuleRecord } now

/-- `resetAll()`. -/
def resetAll (now : String) : Store :=
  save (createDefault now) now

/-- A stored per-module record as read back from `localStorage`, before
`load` has repaired it: `sectionsCompleted = none` embeds a value that
fails the `Array.isArray` test (absent or mistyped). -/
structure StoredModule where
  status : String
  sectionsCompleted : Option (List String)
  quizScore : Option ℚ
  quizAttempts : ℤ
  deriving DecidableEq

/-- The stored root record as parsed from `localStorage`: `version = none`
embeds an absent (falsy) version tag and `modules = none` an absent
modules map. -/
structure StoredRecord where
  version : Option String
  startedAt : String
  lastUpdated : String
  modules : Option (List (String × StoredModule))
  overallProgress : ℤ
  deriving DecidableEq

/-- The default record inserted by `load` for a missing known module key. -/
def defaultStoredModule : StoredModule :=
  { status := "not-started", sectionsCompleted := some [], quizScore := none,
    quizAttempts := 0 }

/-- The `Array.isArray` repair of `load`: replace a non-array
`sectionsCompleted` with `[]`. -/
def fixModule (sm : StoredModule) : StoredModule :=
  match sm.sectionsCompleted with
  | some _ => sm
  | none => { sm with sectionsCompleted := some [] }

/-- One pass of the `load` repair loop for the key `"module" + i`: insert
the default record when the key is missing, otherwise repair its
`sectionsCompleted` field. -/
def repairOne (mods : List (String × StoredModule)) (key : String) :
    List (String × StoredModule) :=
  match lookupAssoc mods key with
  | none => setAssoc mods key defaultStoredModule
  | some m => setAssoc mods key (fixModule m)

/-- The full `for (var i = 1; i <= 10; i++)` repair loop of `load`. -/
def repairAll (mods : List (String × StoredModule)) : List (String × StoredModule) :=
  knownKeys.foldl repairOne mods

/-- Reading a repaired stored module as a live record (`load` guarantees
every known module's `sectionsCompleted` is an array). -/
def toModuleRecord (sm : StoredModule) : ModuleRecord :=
  { status := sm.status, sectionsCompleted := sm.sectionsCompleted.getD [],
    quizScore := sm.quizScore, quizAttempts := sm.quizAttempts }

/-- `load()`: `raw = none` embeds an absent or unparseable stored value
(both give `createDefault`); a version mismatch gives `createDefault`;
a matching version is kept and repaired per known module. -/
def load (raw : Option StoredRecord) (now : String) : Store :=
  match raw with
  | none => createDefault now
  | some parsed =>
    match parsed.version with
    | none => createDefault now
    | some v =>
      if v ≠ CURRENT_VERSION then createDefault now
      else
        match parsed.modules with
        | none => createDefault now
        | some mods =>
          { version := v, startedAt := parsed.startedAt,
            lastUpdated := parsed.lastUpdated,
            modules := (repairAll mods).map (fun p => (p.1, toModuleRecord p.2)),
            overallProgress := parsed.overallProgress }

end Progress

/-! ### QUIZ ENGINE — the `QuizEngine` session state machine -/

namespace Quiz

/-- A question from `quizzes.json`, tagged by its `type` field.  Options,
sources and targets are `(id, text)` pairs; a drag-match question's
`correctPairs` is a source-id → target-id dictionary. -/
inductive Question where
  | multipleChoice (question : String) (options : List (String × String))
      (correctAnswer : String) (explanation : String)
  | trueFalse (question : String) (correctAnswer : Bool) (explanation : String)
  | dragMatch (question : String) (sources targets : List (String × String))
      (correctPairs : List (String × String)) (explanation : String)
  deriving DecidableEq

/-- The `selected` payload recorded in an answer: the selected option id
(`null` allowed) for multiple-choice and true-false, the matched-pairs
dictionary for drag-match. -/
inductive Selection where
  | opt (optionId : Option String)
  | pairs (matchedPairs : List (String × String))
  deriving DecidableEq

/-- One recorded answer (`this.answers[i]`). -/
structure Answer where
  selected : Selection
  correct : Bool
  deriving DecidableEq

/-- The mutable state of a `QuizEngine` instance after its data has
loaded (container/DOM fields are external). -/
structure Session where
  questions : List Question
  passingScore : ℤ
  currentQuestionIndex : ℕ
  answers : List (Option Answer)
  score : ℕ
  isComplete : Bool
  selectedOptionId : Option String
  hasChecked : Bool
  dragSelectedSource : Option String
  matchedPairs : List (String × String)
  deriving DecidableEq

/-- The session as `_loadQuizData` leaves it: index 0, one `null` answer
slot per question, nothing selected, nothing checked. -/
def initSession (questions : List Question) (passingScore : ℤ) : Session :=
  { questions := questions, passingScore := passingScore,
    currentQuestionIndex := 0,
    answers := List.replicate questions.length none,
    score := 0, isComplete := false, selectedOptionId := none,
    hasChecked := false, dragSelectedSource := none, matchedPairs := [] }

/-- `selectOption(optionId)`: locked once the answer has been checked. -/
def selectOption (s : Session) (optionId : String) : Session :=
  if s.hasChecked then s else { s with selectedOptionId := some optionId }

/-- A committed source→target pairing (`matchedPairs[sourceId] = targetId`
in the drop / click handlers, both locked after checking). -/
def commitMatch (s : Session) (sourceId targetId : String) : Session :=
  if s.hasChecked then s
  else { s with matchedPairs := setAssoc s.matchedPairs sourceId targetId,
                dragSelectedSource := none }

/-- `_checkDragMatch(question)`: every source id of `correctPairs` must be
matched to exactly its correct target id. -/
def checkDragMatch (correctPairs matchedPairs : List (String × String)) : Bool :=
  correctPairs.all (fun p => lookupAssoc matchedPairs p.1 == some p.2)

/-- The per-type correctness computation inside `checkAnswer()`.  A `null`
selection compares unequal to any option id, and reads as the boolean
`false` for a true-false question (`selectedOptionId === 'true'`). -/
def questionCorrect (q : Question) (s : Session) : Bool :=
  match q with
  | .multipleChoice _ _ correctAnswer _ => s.selectedOptionId == some correctAnswer
  | .trueFalse _ correctAnswer _ => (s.selectedOptionId == some "true") == correctAnswer
  | .dragMatch _ _ _ correctPairs _ => checkDragMatch correctPairs s.matchedPairs

/-- The `selected` payload recorded by `checkAnswer()`. -/
def answerPayload (q : Question) (s : Session) : Selection :=
  match q with
  | .dragMatch _ _ _ _ _ => .pairs s.matchedPairs
  | _ => .opt s.selectedOptionId

/-- `checkAnswer()`: a no-op when already checked; otherwise computes
correctness for the current question, records the answer, bumps the score
on a correct answer and sets `hasChecked`.  (If the index were out of
range the JavaScript would fault on `question.type`; that branch returns
the state unchanged and is excluded by an index-validity hypothesis in
every theorem about `checkAnswer`.) -/
def checkAnswer (s : Session) : Session :=
  if s.hasChecked then s
  else
    match s.questions.get? s.currentQuestionIndex with
    | none => s
    | some q =>
      let isCorrect := questionCorrect q s
      { s with hasChecked := true,
               answers := s.answers.set s.currentQuestionIndex
                 (some { selected := answerPayload q s, correct := isCorrect }),
               score := if isCorrect then s.score + 1 else s.score }

/-- `nextQuestion()`: on the last question (or past it) set `isComplete`
(the render path then calls `showResults`); otherwise advance the index
and reset the per-question transient state.  The JavaScript test is
`currentQuestionIndex >= questions.length - 1`. -/
def nextQuestion (s : Session) : Session :=
  if s.questions.length - 1 ≤ s.currentQuestionIndex then
    { s with isComplete := true }
  else
    { s with currentQuestionIndex := s.currentQuestionIndex + 1,
             selectedOptionId := none, hasChecked := false,
             dragSelectedSource := none, matchedPairs := [] }

/-- `retry()`. -/
def retry (s : Session) : Session :=
  { s with currentQuestionIndex := 0,
           answers := List.replicate s.questions.length none,
           score := 0, isComplete := false, selectedOptionId := none,
           hasChecked := false, dragSelectedSource := none, matchedPairs := [] }

/-- The final score percentage computed by `showResults()`:
`Math.round((score / questions.length) * 100)`. -/
def scorePercent (s : Session) : ℤ :=
  jsRound ((s.score : ℚ) / (s.questions.length : ℚ) * 100)

/-- `isPassing` in `showResults()`: `scorePercent >= passingScore`. -/
def isPassing (s : Session) : Bool :=
  decide (s.passingScore ≤ scorePercent s)

/-- User-driven session operations (the handlers the rendered page binds). -/
inductive QuizEvent where
  | select (optionId : String)
  | matchPair (sourceId targetId : String)
  | check
  | next
  | restart
  deriving DecidableEq

/-- One event applied to the session. -/
def step (s : Session) : QuizEvent → Session
  | .select optionId => selectOption s optionId
  | .matchPair sourceId targetId => commitMatch s sourceId targetId
  | .check => checkAnswer s
  | .next => nextQuestion s
  | .restart => retry s

/-- A session driven through a list of events. -/
def runEvents (s : Session) (evs : List QuizEvent) : Session :=
  evs.foldl step s

/-- Number of recorded answers marked correct. -/
def countCorrect (answers : List (Option Answer)) : ℕ :=
  answers.countP (fun o => match o with | some a => a.correct | none => false)

end Quiz

/-! ### Claim theorems -/

namespace Progress

/-- The quiz component exactly as the specification words it: `1` if the
latest quiz score is non-null and at least 70, else `score/100` if a score
is recorded, else `0`. -/
def specQuizComponent (quizScore : Option ℚ) : ℚ :=
  match quizScore with
  | some q => if 70 ≤ q then 1 else q / 100
  | none => 0

/-- Claim C1: for every module id known to the store (with its recorded
quiz score, if any, a percentage in `[0, 100]`), `getModuleProgress` is in
`[0, 100]` and equals
`round(0.7 × min(sectionsCompleted/totalSections, 1) × 100 + 0.3 × quizComponent × 100)`
with the quiz component as the specification defines it. -/
theorem getModuleProgress_spec (st : Store) (mid : String) (m : ModuleRecord)
    (hm : lookupAssoc st.modules mid = some m)
    (hscore : ∀ q, m.quizScore = some q → 0 ≤ q ∧ q ≤ 100) :
    0 ≤ getModuleProgress st mid ∧ getModuleProgress st mid ≤ 100 ∧
    getModuleProgress st mid =
      jsRound ((7 / 10 : ℚ) *
          min ((m.sectionsCompleted.length : ℚ) / (totalSectionsFor mid : ℚ)) 1 * 100 +
        (3 / 10 : ℚ) * specQuizComponent m.quizScore * 100) := by
  have hkey : getModuleProgress st mid =
      jsRound (min ((m.sectionsCompleted.length : ℚ) / (totalSectionsFor mid : ℚ)) 1 * 70 +
        specQuizComponent m.quizScore * 30) := by
    simp only [getModuleProgress, hm, specQuizComponent]
  set sp : ℚ := min ((m.sectionsCompleted.length : ℚ) / (totalSectionsFor mid : ℚ)) 1 with hsp
  have hsp0 : 0 ≤ sp := by
    apply le_min
    · positivity
    · norm_num
  have hsp1 : sp ≤ 1 := min_le_right _ _
  have hqc0 : 0 ≤ specQuizComponent m.quizScore ∧ specQuizComponent m.quizScore ≤ 1 := by
    unfold specQuizComponent
    cases hq : m.quizScore with
    | none => norm_num
    | some q =>
      rcases hscore q hq with ⟨hq0, hq1⟩
      by_cases h70 : 70 ≤ q
      · simp [h70]
      · simp only [h70, if_false]
        constructor
        · positivity
        · rw [div_le_one (by norm_num : (0:ℚ) < 100)]
          exact hq1
  refine ⟨?_, ?_, ?_⟩
  · rw [hkey]
    exact jsRound_nonneg (by nlinarith [hqc0.1])
  · rw [hkey]
    exact jsRound_le_hundred (by nlinarith [hqc0.2])
  · rw [hkey]
    congr 1
    ring

/-- A concrete store for evaluating the progress-store theorems:
`module1` has three completed sections and a recorded score of 85. -/
def storeC1 : Store :=
  { version := CURRENT_VERSION, startedAt := "t0", lastUpdated := "t0",
    modules := [("module1",
      { status := "in-progress", sectionsCompleted := ["sec-1", "sec-2", "sec-3"],
        quizScore := some 85, quizAttempts := 2 })],
    overallProgress := 0 }

/-- Witness for C1 at `storeC1` and `module1`. -/
theorem getModuleProgress_spec_witness :
    0 ≤ getModuleProgress storeC1 "module1" ∧
    getModuleProgress storeC1 "module1" ≤ 100 ∧
    getModuleProgress storeC1 "module1" =
      jsRound ((7 / 10 : ℚ) * min ((3 : ℚ) / (totalSectionsFor "module1" : ℚ)) 1 * 100 +
        (3 / 10 : ℚ) * specQuizComponent (some 85) * 100) :=
  getModuleProgress_spec storeC1 "module1"
    { status := "in-progress", sectionsCompleted := ["sec-1", "sec-2", "sec-3"],
      quizScore := some 85, quizAttempts := 2 }
    rfl
    (by
      intro q hq
      have h85 : (85 : ℚ) = q := by injection hq
      rw [← h85]
      exact ⟨by norm_num, by norm_num⟩)

end Progress

namespace Progress

theorem quizPassedB_set_status (m : ModuleRecord) (st₁ : String) :
    quizPassedB { m with status := st₁ } = quizPassedB m := rfl

theorem checkModuleCompletion_sections (mid : String) (m : ModuleRecord) :
    (checkModuleCompletion mid m).sectionsCompleted = m.sectionsCompleted := by
  unfold checkModuleCompletion
  split <;> rfl

theorem checkModuleCompletion_quizScore (mid : String) (m : ModuleRecord) :
    (checkModuleCompletion mid m).quizScore = m.quizScore := by
  unfold checkModuleCompletion
  split <;> rfl

theorem checkModuleCompletion_status (mid : String) (m : ModuleRecord) :
    (checkModuleCompletion mid m).status = "completed" ∨
    (checkModuleCompletion mid m).status = m.status := by
  unfold checkModuleCompletion
  split
  · exact Or.inl rfl
  · exact Or.inr rfl

theorem checkModuleCompletion_idem (mid : String) (m : ModuleRecord) :
    checkModuleCompletion mid (checkModuleCompletion mid m) = checkModuleCompletion mid m := by
  by_cases hc : (decide (totalSectionsFor mid ≤ m.sectionsCompleted.length) && quizPassedB m) = true
  · simp only [checkModuleCompletion, hc, if_true, quizPassedB_set_status]
  · simp [checkModuleCompletion, hc]

theorem addSection_sections (sid : String) (m : ModuleRecord) :
    (addSection sid m).sectionsCompleted =
      if sid ∈ m.sectionsCompleted then m.sectionsCompleted
      else m.sectionsCompleted ++ [sid] := by
  unfold addSection
  split <;> simp_all

theorem addSection_status (sid : String) (m : ModuleRecord) :
    (addSection sid m).status = m.status := by
  unfold addSection
  split <;> rfl

theorem addSection_quizScore (sid : String) (m : ModuleRecord) :
    (addSection sid m).quizScore = m.quizScore := by
  unfold addSection
  split <;> rfl

theorem addSection_of_mem (sid : String) (m : ModuleRecord)
    (h : sid ∈ m.sectionsCompleted) : addSection sid m = m := by
  unfold addSection
  simp [h]

theorem promoteInProgress_sections (m : ModuleRecord) :
    (promoteInProgress m).sectionsCompleted = m.sectionsCompleted := by
  unfold promoteInProgress
  split <;> rfl

theorem promoteInProgress_quizScore (m : ModuleRecord) :
    (promoteInProgress m).quizScore = m.quizScore := by
  unfold promoteInProgress
  split <;> rfl

theorem promoteInProgress_status_ne (m : ModuleRecord) :
    (promoteInProgress m).status ≠ "not-started" := by
  unfold promoteInProgress
  split
  · simp
  · next h => exact h

theorem promoteInProgress_of_ne (m : ModuleRecord)
    (h : m.status ≠ "not-started") : promoteInProgress m = m := by
  unfold promoteInProgress
  simp [h]

theorem applyMarkSection_sections (mid sid : String) (m : ModuleRecord) :
    (applyMarkSection mid sid m).sectionsCompleted =
      if sid ∈ m.sectionsCompleted then m.sectionsCompleted
      else m.sectionsCompleted ++ [sid] := by
  unfold applyMarkSection
  rw [checkModuleCompletion_sections, promoteInProgress_sections, addSection_sections]

theorem applyMarkSection_quizScore (mid sid : String) (m : ModuleRecord) :
    (applyMarkSection mid sid m).quizScore = m.quizScore := by
  unfold applyMarkSection
  rw [checkModuleCompletion_quizScore, promoteInProgress_quizScore, addSection_quizScore]

theorem applyMarkSection_mem (mid sid : String) (m : ModuleRecord) :
    sid ∈ (applyMarkSection mid sid m).sectionsCompleted := by
  rw [applyMarkSection_sections]
  by_cases hmem : sid ∈ m.sectionsCompleted <;> simp [hmem]

theorem applyMarkSection_status_ne (mid sid : String) (m : ModuleRecord) :
    (applyMarkSection mid sid m).status ≠ "not-started" := by
  unfold applyMarkSection
  rcases checkModuleCompletion_status mid (promoteInProgress (addSection sid m)) with h | h
  · rw [h]
    simp
  · rw [h]
    exact promoteInProgress_status_ne _

theorem applyMarkSection_completed (mid sid : String) (m : ModuleRecord)
    (h : m.status = "completed") :
    (applyMarkSection mid sid m).status = "completed" := by
  unfold applyMarkSection
  have h₁ : (addSection sid m).status = "completed" := by rw [addSection_status, h]
  have h₂ : promoteInProgress (addSection sid m) = addSection sid m :=
    promoteInProgress_of_ne _ (by rw [h₁]; simp)
  rw [h₂]
  rcases checkModuleCompletion_status mid (addSection sid m) with h₃ | h₃
  · exact h₃
  · rw [h₃]
    exact h₁

theorem applyMarkSection_idem (mid sid : String) (m : ModuleRecord) :
    applyMarkSection mid sid (applyMarkSection mid sid m) = applyMarkSection mid sid m := by
  have hmem := applyMarkSection_mem mid sid m
  have hne := applyMarkSection_status_ne mid sid m
  conv_lhs => rw [applyMarkSection]
  rw [addSection_of_mem _ _ hmem, promoteInProgress_of_ne _ hne]
  conv_lhs => rw [applyMarkSection]
  exact checkModuleCompletion_idem _ _

theorem applyMarkSection_nodup (mid sid : String) (m : ModuleRecord)
    (h : m.sectionsCompleted.Nodup) :
    (applyMarkSection mid sid m).sectionsCompleted.Nodup := by
  rw [applyMarkSection_sections]
  by_cases hmem : sid ∈ m.sectionsCompleted
  · simpa [hmem] using h
  · simp only [hmem, if_false]
    rw [List.nodup_append]
    exact ⟨h, List.nodup_singleton sid, by simpa using hmem⟩

theorem getModuleProgress_modules_congr (st st₁ : Store) (mid : String)
    (h : st.modules = st₁.modules) :
    getModuleProgress st mid = getModuleProgress st₁ mid := by
  simp only [getModuleProgress, h]

theorem getOverallProgress_modules_congr (st st₁ : Store)
    (h : st.modules = st₁.modules) :
    getOverallProgress st = getOverallProgress st₁ := by
  simp only [getOverallProgress, getModuleProgress, h]

theorem save_modules (st : Store) (now : String) : (save st now).modules = st.modules := rfl

theorem save_save (st : Store) (now now₁ : String) :
    save (save st now) now₁ = save st now₁ := by
  unfold save
  have h : getOverallProgress
      { st with lastUpdated := now, overallProgress := getOverallProgress st } =
      getOverallProgress st :=
    getOverallProgress_modules_congr _ _ rfl
  rw [h]

end Progress

namespace Progress

theorem markSectionComplete_of_lookup (st : Store) (mid sid now : String) (m : ModuleRecord)
    (hm : lookupAssoc st.modules mid = some m) :
    markSectionComplete st mid sid now =
      save { st with modules := setAssoc st.modules mid (applyMarkSection mid sid m) } now := by
  simp only [markSectionComplete, hm]

theorem saveQuizScore_of_lookup (st : Store) (mid : String) (sc : ℚ) (now : String)
    (m : ModuleRecord) (hm : lookupAssoc st.modules mid = some m) :
    saveQuizScore st mid sc now =
      save { st with modules := setAssoc st.modules mid (applySaveQuizScore sc m) } now := by
  simp only [saveQuizScore, hm]

theorem resetModule_of_lookup (st : Store) (mid now : String) (m : ModuleRecord)
    (hm : lookupAssoc st.modules mid = some m) :
    resetModule st mid now =
      save { st with modules := setAssoc st.modules mid defaultModuleRecord } now := by
  simp only [resetModule, hm]

theorem getModuleStatus_of_lookup (st : Store) (mid : String) (m : ModuleRecord)
    (hm : lookupAssoc st.modules mid = some m) :
    getModuleStatus st mid = m.status := by
  simp only [getModuleStatus, hm]

theorem applySaveQuizScore_status_of_pass (sc : ℚ) (m : ModuleRecord) (h : 70 ≤ sc) :
    (applySaveQuizScore sc m).status = "completed" := by
  unfold applySaveQuizScore
  simp [h]

theorem applySaveQuizScore_completed (sc : ℚ) (m : ModuleRecord)
    (h : m.status = "completed") :
    (applySaveQuizScore sc m).status = "completed" := by
  unfold applySaveQuizScore
  by_cases h70 : 70 ≤ sc
  · simp [h70]
  · simp [h70, h]

/-- Claim C7: `markSectionComplete` is idempotent — for a known module id,
applying it twice with the same section id equals applying it once (same
store, hence same module record and completed-section set), the updated
record is `applyMarkSection` of the old one, and no duplicate section ids
are ever introduced. -/
theorem markSectionComplete_idem (st : Store) (mid sid now : String) (m : ModuleRecord)
    (hm : lookupAssoc st.modules mid = some m) :
    markSectionComplete (markSectionComplete st mid sid now) mid sid now =
      markSectionComplete st mid sid now ∧
    lookupAssoc (markSectionComplete st mid sid now).modules mid =
      some (applyMarkSection mid sid m) ∧
    (m.sectionsCompleted.Nodup → (applyMarkSection mid sid m).sectionsCompleted.Nodup) := by
  have h₁ := markSectionComplete_of_lookup st mid sid now m hm
  have hmod : (markSectionComplete st mid sid now).modules =
      setAssoc st.modules mid (applyMarkSection mid sid m) := by rw [h₁]; rfl
  have h₂ : lookupAssoc (markSectionComplete st mid sid now).modules mid =
      some (applyMarkSection mid sid m) := by
    rw [hmod]; exact lookupAssoc_setAssoc_self _ _ _
  refine ⟨?_, h₂, applyMarkSection_nodup mid sid m⟩
  have h₃ := markSectionComplete_of_lookup (markSectionComplete st mid sid now) mid sid now _ h₂
  rw [h₃, applyMarkSection_idem, hmod,
    setAssoc_eq_self _ _ _ (lookupAssoc_setAssoc_self _ _ _), h₁]
  exact save_save { st with modules := setAssoc st.modules mid (applyMarkSection mid sid m) }
    now now

/-- Witness for C7 on `storeC1`: adding section `sec-4` twice equals
adding it once. -/
theorem markSectionComplete_idem_witness :
    markSectionComplete (markSectionComplete storeC1 "module1" "sec-4" "t1")
        "module1" "sec-4" "t1" =
      markSectionComplete storeC1 "module1" "sec-4" "t1" :=
  (markSectionComplete_idem storeC1 "module1" "sec-4" "t1"
    { status := "in-progress", sectionsCompleted := ["sec-1", "sec-2", "sec-3"],
      quizScore := some 85, quizAttempts := 2 } rfl).1

/-- Claim C2: auto-completion is order-independent.  From a known module
one section short of its declared total with no passing score recorded,
a passing `saveQuizScore` and the `markSectionComplete` of the missing
section leave the status `completed` in either order. -/
theorem autoCompletion_order_independent (st : Store) (mid sid : String) (sc : ℚ)
    (now₁ now₂ : String) (m : ModuleRecord)
    (hm : lookupAssoc st.modules mid = some m)
    (_hn : m.sectionsCompleted.length = totalSectionsFor mid - 1)
    (_hnew : sid ∉ m.sectionsCompleted)
    (_hnopass : ∀ q, m.quizScore = some q → q < 70)
    (hpass : 70 ≤ sc) :
    getModuleStatus (markSectionComplete (saveQuizScore st mid sc now₁) mid sid now₂) mid
        = "completed" ∧
    getModuleStatus (saveQuizScore (markSectionComplete st mid sid now₁) mid sc now₂) mid
        = "completed" := by
  constructor
  · have hA := saveQuizScore_of_lookup st mid sc now₁ m hm
    have hmodA : (saveQuizScore st mid sc now₁).modules =
        setAssoc st.modules mid (applySaveQuizScore sc m) := by rw [hA]; rfl
    have hlA : lookupAssoc (saveQuizScore st mid sc now₁).modules mid =
        some (applySaveQuizScore sc m) := by
      rw [hmodA]; exact lookupAssoc_setAssoc_self _ _ _
    have hB := markSectionComplete_of_lookup (saveQuizScore st mid sc now₁) mid sid now₂ _ hlA
    have hmodB : (markSectionComplete (saveQuizScore st mid sc now₁) mid sid now₂).modules =
        setAssoc (saveQuizScore st mid sc now₁).modules mid
          (applyMarkSection mid sid (applySaveQuizScore sc m)) := by rw [hB]; rfl
    rw [getModuleStatus_of_lookup _ _ _ (by rw [hmodB]; exact lookupAssoc_setAssoc_self _ _ _)]
    exact applyMarkSection_completed mid sid _ (applySaveQuizScore_status_of_pass sc m hpass)
  · have hA := markSectionComplete_of_lookup st mid sid now₁ m hm
    have hmodA : (markSectionComplete st mid sid now₁).modules =
        setAssoc st.modules mid (applyMarkSection mid sid m) := by rw [hA]; rfl
    have hlA : lookupAssoc (markSectionComplete st mid sid now₁).modules mid =
        some (applyMarkSection mid sid m) := by
      rw [hmodA]; exact lookupAssoc_setAssoc_self _ _ _
    have hB := saveQuizScore_of_lookup (markSectionComplete st mid sid now₁) mid sc now₂ _ hlA
    have hmodB : (saveQuizScore (markSectionComplete st mid sid now₁) mid sc now₂).modules =
        setAssoc (markSectionComplete st mid sid now₁).modules mid
          (applySaveQuizScore sc (applyMarkSection mid sid m)) := by rw [hB]; rfl
    rw [getModuleStatus_of_lookup _ _ _ (by rw [hmodB]; exact lookupAssoc_setAssoc_self _ _ _)]
    exact applySaveQuizScore_status_of_pass sc _ hpass

/-- A store in which `module1` has 9 of its 10 sections completed and no
quiz score, as in the specification's order-independence scenario. -/
def storeC2 : Store :=
  { version := CURRENT_VERSION, startedAt := "t0", lastUpdated := "t0",
    modules := [("module1",
      { status := "in-progress",
        sectionsCompleted := ["sec-1", "sec-2", "sec-3", "sec-4", "sec-5",
          "sec-6", "sec-7", "sec-8", "sec-9"],
        quizScore := none, quizAttempts := 0 })],
    overallProgress := 0 }

/-- Witness for C2: `saveQuizScore("module1", 85)` and
`markSectionComplete("module1", "sec-10")` converge on `completed` in
either order on `storeC2`. -/
theorem autoCompletion_order_independent_witness :
    getModuleStatus (markSectionComplete (saveQuizScore storeC2 "module1" 85 "t1")
        "module1" "sec-10" "t2") "module1" = "completed" ∧
    getModuleStatus (saveQuizScore (markSectionComplete storeC2 "module1" "sec-10" "t1")
        "module1" 85 "t2") "module1" = "completed" :=
  autoCompletion_order_independent storeC2 "module1" "sec-10" 85 "t1" "t2"
    { status := "in-progress",
      sectionsCompleted := ["sec-1", "sec-2", "sec-3", "sec-4", "sec-5",
        "sec-6", "sec-7", "sec-8", "sec-9"],
      quizScore := none, quizAttempts := 0 }
    rfl (by decide) (by decide) (by intro q hq; cases hq) (by decide)

/-- Claim C10: a `completed` status is sticky — neither
`markSectionComplete` (any section id) nor `saveQuizScore` (any score,
failing ones included) moves a module's status away from `completed`;
`resetModule` is what demotes it, back to `not-started`. -/
theorem completed_status_sticky (st : Store) (mid sid : String) (sc : ℚ) (now : String)
    (m : ModuleRecord)
    (hm : lookupAssoc st.modules mid = some m)
    (hc : m.status = "completed") :
    getModuleStatus (markSectionComplete st mid sid now) mid = "completed" ∧
    getModuleStatus (saveQuizScore st mid sc now) mid = "completed" ∧
    getModuleStatus (resetModule st mid now) mid = "not-started" := by
  refine ⟨?_, ?_, ?_⟩
  · have h₁ := markSectionComplete_of_lookup st mid sid now m hm
    have hmod : (markSectionComplete st mid sid now).modules =
        setAssoc st.modules mid (applyMarkSection mid sid m) := by rw [h₁]; rfl
    rw [getModuleStatus_of_lookup _ _ _ (by rw [hmod]; exact lookupAssoc_setAssoc_self _ _ _)]
    exact applyMarkSection_completed mid sid m hc
  · have h₁ := saveQuizScore_of_lookup st mid sc now m hm
    have hmod : (saveQuizScore st mid sc now).modules =
        setAssoc st.modules mid (applySaveQuizScore sc m) := by rw [h₁]; rfl
    rw [getModuleStatus_of_lookup _ _ _ (by rw [hmod]; exact lookupAssoc_setAssoc_self _ _ _)]
    exact applySaveQuizScore_completed sc m hc
  · have h₁ := resetModule_of_lookup st mid now m hm
    have hmod : (resetModule st mid now).modules =
        setAssoc st.modules mid defaultModuleRecord := by rw [h₁]; rfl
    rw [getModuleStatus_of_lookup _ _ _ (by rw [hmod]; exact lookupAssoc_setAssoc_self _ _ _)]
    rfl

/-- A store in which `module3` is completed with score 90 and 11/11
sections. -/
def storeC10 : Store :=
  { version := CURRENT_VERSION, startedAt := "t0", lastUpdated := "t0",
    modules := [("module3",
      { status := "completed",
        sectionsCompleted := ["s1", "s2", "s3", "s4", "s5", "s6", "s7", "s8",
          "s9", "s10", "s11"],
        quizScore := some 90, quizAttempts := 1 })],
    overallProgress := 0 }

/-- Witness for C10 on `storeC10`: a failing retake (score 40) and a new
section mark keep `module3` completed; `resetModule` demotes it. -/
theorem completed_status_sticky_witness :
    getModuleStatus (markSectionComplete storeC10 "module3" "s12" "t1") "module3"
        = "completed" ∧
    getModuleStatus (saveQuizScore storeC10 "module3" 40 "t1") "module3" = "completed" ∧
    getModuleStatus (resetModule storeC10 "module3" "t1") "module3" = "not-started" :=
  completed_status_sticky storeC10 "module3" "s12" 40 "t1"
    { status := "completed",
      sectionsCompleted := ["s1", "s2", "s3", "s4", "s5", "s6", "s7", "s8",
        "s9", "s10", "s11"],
      quizScore := some 90, quizAttempts := 1 }
    rfl rfl

end Progress

namespace Progress

theorem fixModule_idem (sm : StoredModule) : fixModule (fixModule sm) = fixModule sm := by
  unfold fixModule
  cases h : sm.sectionsCompleted <;> simp [h]

theorem fixModule_default : fixModule defaultStoredModule = defaultStoredModule := rfl

theorem lookupAssoc_repairOne_self (mods : List (String × StoredModule)) (k : String) :
    lookupAssoc (repairOne mods k) k =
      some (match lookupAssoc mods k with
            | none => defaultStoredModule
            | some m => fixModule m) := by
  unfold repairOne
  cases h : lookupAssoc mods k <;> simp [lookupAssoc_setAssoc_self]

theorem lookupAssoc_repairOne_ne (mods : List (String × StoredModule)) (k k₁ : String)
    (h : k₁ ≠ k) : lookupAssoc (repairOne mods k) k₁ = lookupAssoc mods k₁ := by
  unfold repairOne
  cases hl : lookupAssoc mods k <;> exact lookupAssoc_setAssoc_ne _ _ _ _ h

theorem foldl_repairOne_stable (ks : List String) (acc : List (String × StoredModule))
    (k : String) (v : StoredModule)
    (hv : lookupAssoc acc k = some v) (hfix : fixModule v = v) :
    lookupAssoc (ks.foldl repairOne acc) k = some v := by
  induction ks generalizing acc with
  | nil => simpa using hv
  | cons k₁ t ih =>
    rw [List.foldl_cons]
    by_cases hk : k₁ = k
    · subst hk
      refine ih (repairOne acc k₁) ?_
      rw [lookupAssoc_repairOne_self, hv]
      simp [hfix]
    · refine ih (repairOne acc k₁) ?_
      rw [lookupAssoc_repairOne_ne _ _ _ (fun h₁ => hk h₁.symm)]
      exact hv

theorem foldl_repairOne_mem (ks : List String) (acc : List (String × StoredModule))
    (k : String) (hk : k ∈ ks) :
    lookupAssoc (ks.foldl repairOne acc) k =
      some (match lookupAssoc acc k with
            | none => defaultStoredModule
            | some m => fixModule m) := by
  induction ks generalizing acc with
  | nil => simp at hk
  | cons k₁ t ih =>
    rw [List.foldl_cons]
    by_cases hke : k₁ = k
    · subst hke
      apply foldl_repairOne_stable t (repairOne acc k₁) k₁ _
        (lookupAssoc_repairOne_self acc k₁)
      cases h : lookupAssoc acc k₁ <;> simp [fixModule_default, fixModule_idem]
    · have hmem : k ∈ t := by
        rcases List.mem_cons.mp hk with h₁ | h₁
        · exact absurd h₁.symm hke
        · exact h₁
      rw [ih (repairOne acc k₁) hmem, lookupAssoc_repairOne_ne _ _ _ (fun h₁ => hke h₁.symm)]

/-- Claim C8: whenever the stored record's version tag is absent or is not
the expected `CURRENT_VERSION`, `load` discards the entire record and
returns exactly `createDefault()`, in which every known module is present
with status `not-started`, an empty completed-section set, a null score
and zero attempts. -/
theorem load_version_mismatch_resets (parsed : StoredRecord) (now : String)
    (h : ∀ v, parsed.version = some v → v ≠ CURRENT_VERSION) :
    load (some parsed) now = createDefault now ∧
    ∀ k ∈ knownKeys,
      lookupAssoc (createDefault now).modules k = some defaultModuleRecord := by
  constructor
  · cases hv : parsed.version with
    | none => simp [load, hv]
    | some v =>
      have hne : v ≠ CURRENT_VERSION := h v hv
      simp [load, hv, hne]
  · intro k hk
    unfold createDefault
    exact lookupAssoc_map_const knownKeys defaultModuleRecord k hk

/-- A stored record carrying a stale version tag together with module
data that would otherwise survive a load. -/
def staleStored : StoredRecord :=
  { version := some "0.9", startedAt := "t0", lastUpdated := "t0",
    modules := some [("module1",
      { status := "completed", sectionsCompleted := some ["sec-1"],
        quizScore := some 95, quizAttempts := 3 })],
    overallProgress := 7 }

/-- Witness for C8: loading `staleStored` yields `createDefault`. -/
theorem load_version_mismatch_resets_witness :
    load (some staleStored) "t1" = createDefault "t1" ∧
    ∀ k ∈ knownKeys,
      lookupAssoc (createDefault "t1").modules k = some defaultModuleRecord :=
  load_version_mismatch_resets staleStored "t1"
    (by
      intro v hv
      have h₉ : some "0.9" = some v := hv
      injection h₉ with h₉
      rw [← h₉]
      decide)

/-- Claim C9: on a version match, `load` repairs known modules one at a
time — a module present with an array `sectionsCompleted` is kept
entirely unchanged, a present module whose `sectionsCompleted` is not an
array gets exactly that field replaced by `[]`, and a missing known
module key gets the default record — instead of discarding the record. -/
theorem load_repairs_in_place (parsed : StoredRecord)
    (mods : List (String × StoredModule)) (now : String)
    (hv : parsed.version = some CURRENT_VERSION)
    (hm : parsed.modules = some mods) :
    ∀ k ∈ knownKeys,
      (∀ sm l, lookupAssoc mods k = some sm → sm.sectionsCompleted = some l →
        lookupAssoc (load (some parsed) now).modules k =
          some { status := sm.status, sectionsCompleted := l,
                 quizScore := sm.quizScore, quizAttempts := sm.quizAttempts }) ∧
      (∀ sm, lookupAssoc mods k = some sm → sm.sectionsCompleted = none →
        lookupAssoc (load (some parsed) now).modules k =
          some { status := sm.status, sectionsCompleted := [],
                 quizScore := sm.quizScore, quizAttempts := sm.quizAttempts }) ∧
      (lookupAssoc mods k = none →
        lookupAssoc (load (some parsed) now).modules k = some defaultModuleRecord) := by
  have hload : (load (some parsed) now).modules =
      (repairAll mods).map (fun p => (p.1, toModuleRecord p.2)) := by
    simp [load, hv, hm]
  intro k hk
  have hrep : lookupAssoc (repairAll mods) k =
      some (match lookupAssoc mods k with
            | none => defaultStoredModule
            | some m => fixModule m) :=
    foldl_repairOne_mem knownKeys mods k hk
  refine ⟨?_, ?_, ?_⟩
  · intro sm l hsm hl
    rw [hload, lookupAssoc_map, hrep, hsm]
    simp [fixModule, toModuleRecord, hl]
  · intro sm hsm hl
    rw [hload, lookupAssoc_map, hrep, hsm]
    simp [fixModule, toModuleRecord, hl]
  · intro hsm
    rw [hload, lookupAssoc_map, hrep, hsm]
    rfl

/-- A stored record with a matching version whose `module1` is intact,
whose `module3` has a mistyped `sectionsCompleted`, and whose `module2`
is missing altogether. -/
def partialStored : StoredRecord :=
  { version := some "1.0", startedAt := "t0", lastUpdated := "t0",
    modules := some
      [("module1",
        { status := "in-progress", sectionsCompleted := some ["sec-1", "sec-2"],
          quizScore := some 80, quizAttempts := 1 }),
       ("module3",
        { status := "in-progress", sectionsCompleted := none,
          quizScore := none, quizAttempts := 0 })],
    overallProgress := 12 }

/-- Witness for C9 on `partialStored`: `module1` survives unchanged,
`module3` has only its section list repaired, `module2` is recreated. -/
theorem load_repairs_in_place_witness :
    lookupAssoc (load (some partialStored) "t1").modules "module1" =
      some { status := "in-progress", sectionsCompleted := ["sec-1", "sec-2"],
             quizScore := some 80, quizAttempts := 1 } ∧
    lookupAssoc (load (some partialStored) "t1").modules "module3" =
      some { status := "in-progress", sectionsCompleted := [],
             quizScore := none, quizAttempts := 0 } ∧
    lookupAssoc (load (some partialStored) "t1").modules "module2" =
      some defaultModuleRecord := by
  have h := load_repairs_in_place partialStored
    [("module1",
      { status := "in-progress", sectionsCompleted := some ["sec-1", "sec-2"],
        quizScore := some 80, quizAttempts := 1 }),
     ("module3",
      { status := "in-progress", sectionsCompleted := none,
        quizScore := none, quizAttempts := 0 })]
    "t1" rfl rfl
  exact ⟨(h "module1" (by decide)).1 _ _ rfl rfl,
    (h "module3" (by decide)).2.1 _ rfl rfl,
    (h "module2" (by decide)).2.2 rfl⟩

end Progress

namespace Quiz

theorem checkDragMatch_eq_true_iff (correctPairs matchedPairs : List (String × String)) :
    checkDragMatch correctPairs matchedPairs = true ↔
      ∀ p ∈ correctPairs, lookupAssoc matchedPairs p.1 = some p.2 := by
  simp [checkDragMatch, List.all_eq_true]

theorem checkAnswer_not_checked (s : Session) (q : Question)
    (hq : s.questions.get? s.currentQuestionIndex = some q)
    (hchk : s.hasChecked = false) :
    checkAnswer s =
      { s with hasChecked := true,
               answers := s.answers.set s.currentQuestionIndex
                 (some { selected := answerPayload q s, correct := questionCorrect q s }),
               score := if questionCorrect q s then s.score + 1 else s.score } := by
  have hq₁ : s.questions[s.currentQuestionIndex]? = some q := by
    rw [← List.get?_eq_getElem?]
    exact hq
  simp [checkAnswer, hchk, hq₁]

/-- Claim C3: drag-match checking is all-or-nothing.  For a drag-match
question whose correct mapping is a total bijection (here: its keys are
exactly the source ids; no duplicate keys), and a session whose matched
pairs only involve those sources, `checkAnswer` records the answer with
the result of `_checkDragMatch`, which is `true` exactly when the matched
mapping agrees with the correct mapping at every key; in particular any
key where the two mappings differ forces the result `false`. -/
theorem checkAnswer_dragMatch_all_or_nothing (s : Session)
    (qt : String) (sources targets correctPairs : List (String × String)) (ex : String)
    (hq : s.questions.get? s.currentQuestionIndex =
      some (.dragMatch qt sources targets correctPairs ex))
    (hchk : s.hasChecked = false)
    (hlen : s.currentQuestionIndex < s.answers.length)
    (hkeys : (correctPairs.map Prod.fst).Nodup)
    (_htotal : correctPairs.map Prod.fst = sources.map Prod.fst)
    (hdom : ∀ p ∈ s.matchedPairs, (lookupAssoc correctPairs p.1).isSome = true) :
    (checkAnswer s).answers.get? s.currentQuestionIndex =
      some (some { selected := .pairs s.matchedPairs,
                   correct := checkDragMatch correctPairs s.matchedPairs }) ∧
    (checkDragMatch correctPairs s.matchedPairs = true ↔
      ∀ k, lookupAssoc s.matchedPairs k = lookupAssoc correctPairs k) ∧
    (∀ k, lookupAssoc s.matchedPairs k ≠ lookupAssoc correctPairs k →
      checkDragMatch correctPairs s.matchedPairs = false) := by
  have hiff : checkDragMatch correctPairs s.matchedPairs = true ↔
      ∀ k, lookupAssoc s.matchedPairs k = lookupAssoc correctPairs k := by
    rw [checkDragMatch_eq_true_iff]
    constructor
    · intro hall k
      cases hc : lookupAssoc correctPairs k with
      | some v =>
        exact hall (k, v) (lookupAssoc_mem hc)
      | none =>
        cases hmk : lookupAssoc s.matchedPairs k with
        | none => rfl
        | some w =>
          have hw := hdom (k, w) (lookupAssoc_mem hmk)
          rw [hc] at hw
          simp at hw
    · intro hmap p hp
      rw [hmap p.1]
      exact lookupAssoc_of_mem_nodup hkeys hp
  refine ⟨?_, hiff, ?_⟩
  · rw [checkAnswer_not_checked s _ hq hchk]
    have hsel : answerPayload (.dragMatch qt sources targets correctPairs ex) s =
        .pairs s.matchedPairs := rfl
    have hcor : questionCorrect (.dragMatch qt sources targets correctPairs ex) s =
        checkDragMatch correctPairs s.matchedPairs := rfl
    rw [hsel, hcor, List.get?_eq_getElem?]
    exact List.getElem?_set_eq_of_lt _ hlen
  · intro k hne
    rcases Bool.eq_false_or_eq_true (checkDragMatch correctPairs s.matchedPairs) with h | h
    · exact absurd (hiff.mp h k) hne
    · exact h

/-- A session sitting on a drag-match question with three sources, whose
matched pairs agree with the correct mapping except that `s2` and `s3`
are swapped. -/
def sessionC3 : Session :=
  { questions := [.dragMatch "Match" [("s1", "S1"), ("s2", "S2"), ("s3", "S3")]
      [("t1", "T1"), ("t2", "T2"), ("t3", "T3")]
      [("s1", "t1"), ("s2", "t2"), ("s3", "t3")] "E"],
    passingScore := 70, currentQuestionIndex := 0, answers := [none],
    score := 0, isComplete := false, selectedOptionId := none,
    hasChecked := false, dragSelectedSource := none,
    matchedPairs := [("s1", "t1"), ("s2", "t3"), ("s3", "t2")] }

/-- Witness for C3 on `sessionC3`. -/
theorem checkAnswer_dragMatch_all_or_nothing_witness :
    (checkAnswer sessionC3).answers.get? sessionC3.currentQuestionIndex =
      some (some { selected := .pairs sessionC3.matchedPairs,
                   correct := checkDragMatch [("s1", "t1"), ("s2", "t2"), ("s3", "t3")]
                     sessionC3.matchedPairs }) ∧
    checkDragMatch [("s1", "t1"), ("s2", "t2"), ("s3", "t3")]
      sessionC3.matchedPairs = false :=
  have h := checkAnswer_dragMatch_all_or_nothing sessionC3 "Match"
    [("s1", "S1"), ("s2", "S2"), ("s3", "S3")]
    [("t1", "T1"), ("t2", "T2"), ("t3", "T3")]
    [("s1", "t1"), ("s2", "t2"), ("s3", "t3")] "E"
    rfl rfl (by decide) (by decide) (by decide) (by decide)
  ⟨h.1, h.2.2 "s2" (by decide)⟩

end Quiz

namespace Quiz

theorem countCorrect_replicate (n : ℕ) :
    countCorrect (List.replicate n (none : Option Answer)) = 0 := by
  induction n with
  | zero => rfl
  | succ k ih => simp [countCorrect, List.replicate, List.countP_cons]

theorem get?_replicate_cases (n j : ℕ) :
    (List.replicate n (none : Option Answer)).get? j = some none ∨
    (List.replicate n (none : Option Answer)).get? j = none := by
  induction n generalizing j with
  | zero => right; rfl
  | succ k ih =>
    cases j with
    | zero => left; rfl
    | succ m => simpa [List.replicate] using ih m

theorem countCorrect_set (answers : List (Option Answer)) (i : ℕ) (a : Answer)
    (h : answers.get? i = some none) :
    countCorrect (answers.set i (some a)) =
      countCorrect answers + (if a.correct then 1 else 0) := by
  induction answers generalizing i with
  | nil => simp [List.get?] at h
  | cons hd t ih =>
    cases i with
    | zero =>
      simp only [List.get?] at h
      injection h with h
      subst h
      simp only [List.set, countCorrect, List.countP_cons]
      simp
    | succ m =>
      simp only [List.get?] at h
      simp only [List.set, countCorrect, List.countP_cons] at ih ⊢
      rw [ih m h]
      ring

/-- The score-accounting invariant of a quiz session: one answer slot per
question, the running score counts exactly the recorded correct answers,
every slot after the current question is still empty, and the current slot
is empty whenever the question has not been checked. -/
def SessionInv (s : Session) : Prop :=
  s.answers.length = s.questions.length ∧
  s.score = countCorrect s.answers ∧
  (∀ j, s.currentQuestionIndex < j →
    s.answers.get? j = some none ∨ s.answers.get? j = none) ∧
  (s.hasChecked = false →
    s.answers.get? s.currentQuestionIndex = some none ∨
    s.answers.get? s.currentQuestionIndex = none)

theorem sessionInv_init (questions : List Question) (ps : ℤ) :
    SessionInv (initSession questions ps) := by
  refine ⟨by simp [initSession], ?_, ?_, ?_⟩
  · simp [initSession, countCorrect_replicate]
  · intro j _
    exact get?_replicate_cases _ _
  · intro _
    exact get?_replicate_cases _ _

theorem sessionInv_selectOption (s : Session) (oid : String) (h : SessionInv s) :
    SessionInv (selectOption s oid) := by
  unfold selectOption
  split
  · exact h
  · exact h

theorem sessionInv_commitMatch (s : Session) (src tgt : String) (h : SessionInv s) :
    SessionInv (commitMatch s src tgt) := by
  unfold commitMatch
  split
  · exact h
  · exact h

theorem sessionInv_retry (s : Session) (_h : SessionInv s) : SessionInv (retry s) := by
  refine ⟨by simp [retry], ?_, ?_, ?_⟩
  · simp [retry, countCorrect_replicate]
  · intro j _
    exact get?_replicate_cases _ _
  · intro _
    exact get?_replicate_cases _ _

theorem sessionInv_nextQuestion (s : Session) (h : SessionInv s) :
    SessionInv (nextQuestion s) := by
  obtain ⟨hlen, hsc, hfut, hcur⟩ := h
  unfold nextQuestion
  split
  · exact ⟨hlen, hsc, hfut, hcur⟩
  · refine ⟨hlen, hsc, ?_, ?_⟩
    · intro j hj
      have hj₁ : s.currentQuestionIndex + 1 < j := hj
      exact hfut j (by omega)
    · intro _
      exact hfut (s.currentQuestionIndex + 1) (by omega)

theorem sessionInv_checkAnswer (s : Session) (h : SessionInv s) :
    SessionInv (checkAnswer s) := by
  obtain ⟨hlen, hsc, hfut, hcur⟩ := h
  by_cases hchk : s.hasChecked = true
  · unfold checkAnswer
    rw [if_pos hchk]
    exact ⟨hlen, hsc, hfut, hcur⟩
  · rw [Bool.not_eq_true] at hchk
    cases hq : s.questions.get? s.currentQuestionIndex with
    | none =>
      have : checkAnswer s = s := by
        have hq₁ : s.questions[s.currentQuestionIndex]? = none := by
          rw [← List.get?_eq_getElem?]
          exact hq
        simp [checkAnswer, hchk, hq₁]
      rw [this]
      exact ⟨hlen, hsc, hfut, hcur⟩
    | some q =>
      have hidx : s.currentQuestionIndex < s.answers.length := by
        rw [hlen]
        exact List.get?_eq_some.mp hq |>.choose
      have hslot : s.answers.get? s.currentQuestionIndex = some none := by
        rcases hcur hchk with h₁ | h₁
        · exact h₁
        · exact absurd (List.get?_eq_none.mp h₁) (by omega)
      rw [checkAnswer_not_checked s q hq hchk]
      refine ⟨by simpa using hlen, ?_, ?_, ?_⟩
      · rw [countCorrect_set _ _ _ hslot]
        simp only [hsc]
        split <;> simp_all
      · intro j hj
        have hj₁ : s.currentQuestionIndex < j := hj
        rw [List.get?_set_ne _ _ (by omega)]
        exact hfut j hj₁
      · intro hfalse
        have h₂ : (true : Bool) = false := hfalse
        exact absurd h₂ (by decide)

end Quiz

namespace Quiz

theorem sessionInv_step (s : Session) (e : QuizEvent) (h : SessionInv s) :
    SessionInv (step s e) := by
  cases e with
  | select oid => exact sessionInv_selectOption s oid h
  | matchPair src tgt => exact sessionInv_commitMatch s src tgt h
  | check => exact sessionInv_checkAnswer s h
  | next => exact sessionInv_nextQuestion s h
  | restart => exact sessionInv_retry s h

theorem sessionInv_runEvents (s : Session) (evs : List QuizEvent) (h : SessionInv s) :
    SessionInv (runEvents s evs) := by
  induction evs generalizing s with
  | nil => exact h
  | cons e t ih => exact ih (step s e) (sessionInv_step s e h)

theorem checkAnswer_questions (s : Session) : (checkAnswer s).questions = s.questions := by
  unfold checkAnswer
  split
  · rfl
  · split <;> rfl

theorem checkAnswer_passingScore (s : Session) :
    (checkAnswer s).passingScore = s.passingScore := by
  unfold checkAnswer
  split
  · rfl
  · split <;> rfl

theorem step_questions (s : Session) (e : QuizEvent) : (step s e).questions = s.questions := by
  cases e with
  | select oid =>
    show (selectOption s oid).questions = s.questions
    unfold selectOption
    split <;> rfl
  | matchPair src tgt =>
    show (commitMatch s src tgt).questions = s.questions
    unfold commitMatch
    split <;> rfl
  | check => exact checkAnswer_questions s
  | next =>
    show (nextQuestion s).questions = s.questions
    unfold nextQuestion
    split <;> rfl
  | restart => rfl

theorem step_passingScore (s : Session) (e : QuizEvent) :
    (step s e).passingScore = s.passingScore := by
  cases e with
  | select oid =>
    show (selectOption s oid).passingScore = s.passingScore
    unfold selectOption
    split <;> rfl
  | matchPair src tgt =>
    show (commitMatch s src tgt).passingScore = s.passingScore
    unfold commitMatch
    split <;> rfl
  | check => exact checkAnswer_passingScore s
  | next =>
    show (nextQuestion s).passingScore = s.passingScore
    unfold nextQuestion
    split <;> rfl
  | restart => rfl

theorem runEvents_questions (s : Session) (evs : List QuizEvent) :
    (runEvents s evs).questions = s.questions := by
  induction evs generalizing s with
  | nil => rfl
  | cons e t ih => rw [runEvents, List.foldl_cons, ← runEvents, ih, step_questions]

theorem runEvents_passingScore (s : Session) (evs : List QuizEvent) :
    (runEvents s evs).passingScore = s.passingScore := by
  induction evs generalizing s with
  | nil => rfl
  | cons e t ih => rw [runEvents, List.foldl_cons, ← runEvents, ih, step_passingScore]

/-- The two-question multiple-choice quiz of the specification's scoring
scenario: correct answers are `a` for the first question and `b` for the
second. -/
def scenarioQuestions : List Question :=
  [.multipleChoice "Q1" [("a", "A"), ("b", "B"), ("c", "C")] "a" "E1",
   .multipleChoice "Q2" [("a", "A"), ("b", "B"), ("c", "C")] "b" "E2"]

/-- The scenario run: select `a` (correct), check, advance; select `c`
(incorrect), check, advance to results. -/
def scenarioSession : Session :=
  runEvents (initSession scenarioQuestions 70)
    [.select "a", .check, .next, .select "c", .check, .next]

/-- Claim C4: for every event-driven run of a session, the final score
percentage of `showResults` equals `round(correct / total × 100)` over the
recorded answers, and the session passes exactly when that percentage
reaches the passing threshold; in particular the specification's
two-question scenario scores 50% and does not pass at threshold 70. -/
theorem results_score_spec (questions : List Question) (ps : ℤ) (evs : List QuizEvent)
    (_hne : 0 < questions.length)
    (_hcomp : (runEvents (initSession questions ps) evs).isComplete = true) :
    scorePercent (runEvents (initSession questions ps) evs) =
      jsRound ((countCorrect (runEvents (initSession questions ps) evs).answers : ℚ) /
        (questions.length : ℚ) * 100) ∧
    (isPassing (runEvents (initSession questions ps) evs) = true ↔
      ps ≤ scorePercent (runEvents (initSession questions ps) evs)) ∧
    (scorePercent scenarioSession = 50 ∧ isPassing scenarioSession = false) := by
  have hinv := sessionInv_runEvents (initSession questions ps) evs
    (sessionInv_init questions ps)
  obtain ⟨_, hscore, _, _⟩ := hinv
  have hqs : (runEvents (initSession questions ps) evs).questions = questions :=
    runEvents_questions _ _
  have hps : (runEvents (initSession questions ps) evs).passingScore = ps :=
    runEvents_passingScore _ _
  have hscenario : scorePercent scenarioSession = 50 := by
    have h₁ : scenarioSession.score = 1 := by decide
    have h₂ : scenarioSession.questions.length = 2 := by decide
    unfold scorePercent
    rw [h₁, h₂]
    norm_num [jsRound]
  refine ⟨?_, ?_, hscenario, ?_⟩
  · unfold scorePercent
    rw [hscore, hqs]
  · unfold isPassing
    rw [hps]
    exact decide_eq_true_iff
  · have h₃ : scenarioSession.passingScore = 70 := by decide
    unfold isPassing
    rw [hscenario, h₃]
    decide

/-- Witness for C4: the scenario instance itself (one correct, one
incorrect answer out of two questions: 50%, failing at threshold 70). -/
theorem results_score_spec_witness :
    scorePercent scenarioSession = 50 ∧ isPassing scenarioSession = false :=
  (results_score_spec scenarioQuestions 70
    [.select "a", .check, .next, .select "c", .check, .next]
    (by decide) (by decide)).2.2

end Quiz

namespace Quiz

/-- A presenting-state session on a multiple-choice question with nothing
selected and nothing checked. -/
def sessionC5 : Session :=
  { questions := [.multipleChoice "Q1" [("a", "A"), ("b", "B")] "a" "E1"],
    passingScore := 70, currentQuestionIndex := 0, answers := [none],
    score := 0, isComplete := false, selectedOptionId := none,
    hasChecked := false, dragSelectedSource := none, matchedPairs := [] }

/-- Counterexample to C5 as stated: with nothing selected, `checkAnswer`
is not a no-op — it flips `hasChecked` and records an answer. -/
theorem checkAnswer_noSelection_cex :
    sessionC5.selectedOptionId = none ∧ sessionC5.hasChecked = false ∧
    checkAnswer sessionC5 ≠ sessionC5 ∧
    (checkAnswer sessionC5).hasChecked = true ∧
    (checkAnswer sessionC5).answers ≠ sessionC5.answers := by
  refine ⟨rfl, rfl, ?_, rfl, ?_⟩ <;> decide

/-- Claim C5 (amended): with nothing selected (and, for drag-match, not
every source assigned), `checkAnswer()` does not throw and leaves the
current question index unchanged, but it is not a no-op: it sets
`hasChecked` and records an answer for the current question.  The
recorded correctness — and hence the score — treats the null selection as
a real answer: always incorrect for multiple-choice; for drag-match
incorrect whenever some source of the correct mapping is unassigned; for
true-false the null selection reads as the boolean `false`, so it is
scored correct exactly when the question's correct answer is `false`. -/
theorem checkAnswer_noSelection_behavior (s : Session) (q : Question)
    (hq : s.questions.get? s.currentQuestionIndex = some q)
    (_hlen : s.currentQuestionIndex < s.answers.length)
    (hsel : s.selectedOptionId = none)
    (hchk : s.hasChecked = false) :
    (checkAnswer s).currentQuestionIndex = s.currentQuestionIndex ∧
    (checkAnswer s).hasChecked = true ∧
    (checkAnswer s).answers =
      s.answers.set s.currentQuestionIndex
        (some { selected := answerPayload q s, correct := questionCorrect q s }) ∧
    (∀ t opts ca ex, q = .multipleChoice t opts ca ex →
      questionCorrect q s = false ∧ (checkAnswer s).score = s.score) ∧
    (∀ t ca ex, q = .trueFalse t ca ex →
      (questionCorrect q s = true ↔ ca = false) ∧
      (checkAnswer s).score = if ca = false then s.score + 1 else s.score) ∧
    (∀ t ss ts cp ex, q = .dragMatch t ss ts cp ex →
      (∃ p ∈ cp, lookupAssoc s.matchedPairs p.1 = none) →
      questionCorrect q s = false ∧ (checkAnswer s).score = s.score) := by
  have hred := checkAnswer_not_checked s q hq hchk
  refine ⟨by rw [hred], by rw [hred], by rw [hred], ?_, ?_, ?_⟩
  · intro t opts ca ex hqe
    subst hqe
    have hcor : questionCorrect (.multipleChoice t opts ca ex) s = false := by
      simp [questionCorrect, hsel]
    exact ⟨hcor, by rw [hred, hcor]; simp⟩
  · intro t ca ex hqe
    subst hqe
    have hcor : questionCorrect (.trueFalse t ca ex) s = (false == ca) := by
      simp [questionCorrect, hsel]
    constructor
    · rw [hcor]
      cases ca <;> simp
    · rw [hred, hcor]
      cases ca <;> simp
  · intro t ss ts cp ex hqe hmiss
    subst hqe
    have hcor : questionCorrect (.dragMatch t ss ts cp ex) s = false := by
      rcases hmiss with ⟨p, hp, hnone⟩
      rcases Bool.eq_false_or_eq_true (checkDragMatch cp s.matchedPairs) with h | h
      · have h₁ := (checkDragMatch_eq_true_iff cp s.matchedPairs).mp h p hp
        rw [hnone] at h₁
        exact absurd h₁ (by simp)
      · exact h
    exact ⟨hcor, by rw [hred, hcor]; simp⟩

/-- Witness for the amended C5 on `sessionC5`: the call records an
incorrect answer and sets `hasChecked` while keeping the index. -/
theorem checkAnswer_noSelection_behavior_witness :
    (checkAnswer sessionC5).currentQuestionIndex = sessionC5.currentQuestionIndex ∧
    (checkAnswer sessionC5).hasChecked = true ∧
    (checkAnswer sessionC5).score = sessionC5.score :=
  have h := checkAnswer_noSelection_behavior sessionC5
    (.multipleChoice "Q1" [("a", "A"), ("b", "B")] "a" "E1")
    rfl (by decide) rfl rfl
  ⟨h.1, h.2.1, (h.2.2.2.1 "Q1" [("a", "A"), ("b", "B")] "a" "E1" rfl).2⟩

/-- A presenting-state session on the first of two questions, with the
current answer not yet checked. -/
def sessionC6 : Session :=
  { questions := [.trueFalse "Q1" true "E1", .trueFalse "Q2" false "E2"],
    passingScore := 70, currentQuestionIndex := 0, answers := [none, none],
    score := 0, isComplete := false, selectedOptionId := none,
    hasChecked := false, dragSelectedSource := none, matchedPairs := [] }

/-- Counterexample to C6 as stated: with `hasChecked = false`,
`nextQuestion` is not a no-op — it advances to the next question. -/
theorem nextQuestion_unchecked_cex :
    sessionC6.hasChecked = false ∧
    nextQuestion sessionC6 ≠ sessionC6 ∧
    (nextQuestion sessionC6).currentQuestionIndex = 1 := by
  refine ⟨rfl, ?_, rfl⟩
  decide

/-- Claim C6 (amended): `nextQuestion()` performs no `hasChecked` (or any
other) state-validity check — the code relies on the Next button being
hidden until the answer is checked.  From any session state it preserves
the questions, answers, score and threshold; when the current question is
the last (`index ≥ length - 1`) it only sets the completion flag, which
sends the render path to `showResults` (score persistence); otherwise it
advances to the next question and resets the per-question transient
state, whether or not the current question was checked. -/
theorem nextQuestion_behavior (s : Session) :
    (nextQuestion s).questions = s.questions ∧
    (nextQuestion s).answers = s.answers ∧
    (nextQuestion s).score = s.score ∧
    (nextQuestion s).passingScore = s.passingScore ∧
    (s.questions.length - 1 ≤ s.currentQuestionIndex →
      nextQuestion s = { s with isComplete := true }) ∧
    (s.currentQuestionIndex < s.questions.length - 1 →
      nextQuestion s =
        { s with currentQuestionIndex := s.currentQuestionIndex + 1,
                 selectedOptionId := none, hasChecked := false,
                 dragSelectedSource := none, matchedPairs := [] }) := by
  by_cases h : s.questions.length - 1 ≤ s.currentQuestionIndex
  · unfold nextQuestion
    rw [if_pos h]
    exact ⟨rfl, rfl, rfl, rfl, fun _ => rfl, fun hlt => absurd h (by omega)⟩
  · unfold nextQuestion
    rw [if_neg h]
    exact ⟨rfl, rfl, rfl, rfl, fun hle => absurd hle h, fun _ => rfl⟩

/-- Witness for the amended C6 on `sessionC6`: the unchecked call still
advances to question 2 with transient state reset. -/
theorem nextQuestion_behavior_witness :
    nextQuestion sessionC6 =
      { sessionC6 with currentQuestionIndex := 1, selectedOptionId := none,
                       hasChecked := false, dragSelectedSource := none,
                       matchedPairs := [] } :=
  (nextQuestion_behavior sessionC6).2.2.2.2.2 (by decide)

end Quiz
